import Mathlib

/-!
Verification of the Talent Match Scoring Engine.

The engine of the repository is the SQL query assembled by `build_match_sql`
in `src/app.py`.  This file shallowly embeds that query over list-valued
tables: each CTE of the query becomes a Lean definition over a `Snapshot`
of the database, SQL `NULL` becomes `Option`, SQL numerics become `ℚ`, and
the one unguarded division of the query is modelled in `Except` so that a
division-by-zero failure is visible in the embedding.
-/

/-- A row of the `employees` table (`employee_id`, `fullname`, `position_id`). -/
structure Employee where
  employee_id : String
  fullname : String
  position_id : Int
deriving DecidableEq, Repr

/-- A row of the `performance_yearly` table. -/
structure PerfRow where
  employee_id : String
  rating : Int
deriving DecidableEq, Repr

/-- A row of the `competencies_yearly` table; `score` is nullable. -/
structure CompRow where
  employee_id : String
  pillar_code : String
  year : Int
  score : Option ℚ
deriving DecidableEq, Repr

/-- A row of the `profiles_psych` table; every assessment column is nullable. -/
structure PsychRow where
  employee_id : String
  iq : Option ℚ
  gtq : Option ℚ
  tiki : Option ℚ
  faxtor : Option ℚ
  pauli : Option ℚ
  mbti : Option String
  disc : Option String
deriving DecidableEq, Repr

/-- A row of the `papi_scores` table; `score` is nullable. -/
structure PapiRow where
  employee_id : String
  scale_code : String
  score : Option ℚ
deriving DecidableEq, Repr

/-- A row of the `talent_variables_mapping` table (variable → group, weight). -/
structure TvMapRow where
  tv_name : String
  tgv_name : String
  tv_weight : ℚ
deriving DecidableEq, Repr

/-- A row of the `talent_group_weights` table (group → weight). -/
structure TgwRow where
  tgv_name : String
  tgv_weight : ℚ
deriving DecidableEq, Repr

/-- The immutable database snapshot a single run of the engine reads. -/
structure Snapshot where
  employees : List Employee
  performance_yearly : List PerfRow
  competencies_yearly : List CompRow
  profiles_psych : List PsychRow
  papi_scores : List PapiRow
  talent_variables_mapping : List TvMapRow
  talent_group_weights : List TgwRow
deriving Repr

/-- The `params` CTE: the cohort-selection request passed to `build_match_sql`
(`manual_hp_ids`, `role_position_id`, `min_hp_rating`). -/
structure Params where
  manual_hp : List String
  role_position_id : Option Int
  min_hp_rating : Int
deriving Repr

/-- The `role_set` CTE: ids of employees whose `position_id` equals the
requested role (when one is requested) and who have a `performance_yearly`
row with `rating >= min_hp_rating`. -/
def role_set (s : Snapshot) (p : Params) : List String :=
  (s.employees.filter (fun e =>
      (match p.role_position_id with
       | none => false
       | some rid => e.position_id == rid) &&
      s.performance_yearly.any (fun py =>
        py.employee_id == e.employee_id && decide (p.min_hp_rating ≤ py.rating)))).map
    (fun e => e.employee_id)

/-- The `benchmark_set` CTE: union of the manual id list and `role_set`
(membership-wise; duplicates are irrelevant downstream). -/
def benchmark_set (s : Snapshot) (p : Params) : List String :=
  p.manual_hp ++ role_set s p

/-- The `fallback_benchmark` CTE: every id having a `performance_yearly` row
with `rating >= min_hp_rating`, organization-wide. -/
def fallback_benchmark (s : Snapshot) (p : Params) : List String :=
  (s.performance_yearly.filter (fun py => decide (p.min_hp_rating ≤ py.rating))).map
    (fun py => py.employee_id)

/-- Membership in the `final_bench` CTE: `benchmark_set` when that set is
non-empty, otherwise `fallback_benchmark` (the `WHERE NOT EXISTS` guard). -/
def inFinalBench (s : Snapshot) (p : Params) (eid : String) : Bool :=
  if benchmark_set s p = [] then (fallback_benchmark s p).contains eid
  else (benchmark_set s p).contains eid

/-- The spec's description of a role-qualifying employee: position equals the
requested role and some yearly rating reaches the threshold. -/
def roleQualifies (s : Snapshot) (p : Params) (eid : String) : Prop :=
  ∃ e ∈ s.employees, e.employee_id = eid ∧ p.role_position_id = some e.position_id ∧
    ∃ py ∈ s.performance_yearly, py.employee_id = eid ∧ p.min_hp_rating ≤ py.rating

/-- The spec's global fallback rule: some yearly rating reaches the threshold. -/
def ratingQualifies (s : Snapshot) (p : Params) (eid : String) : Prop :=
  ∃ py ∈ s.performance_yearly, py.employee_id = eid ∧ p.min_hp_rating ≤ py.rating

/-- A concrete snapshot used to exercise the cohort resolver. -/
def cohortDemo : Snapshot where
  employees :=
    [⟨"E1", "Ana", 10⟩, ⟨"E2", "Ben", 20⟩, ⟨"E3", "Cia", 20⟩, ⟨"E4", "Dod", 30⟩]
  performance_yearly := [⟨"E1", 5⟩, ⟨"E2", 5⟩, ⟨"E3", 3⟩, ⟨"E4", 5⟩]
  competencies_yearly := []
  profiles_psych := []
  papi_scores := []
  talent_variables_mapping := []
  talent_group_weights := []

/-- A selection with a manual pick and a role, for the precedence branch. -/
def cohortDemoParams : Params where
  manual_hp := ["E1"]
  role_position_id := some 20
  min_hp_rating := 5

/-- A selection with no manual pick and no role, for the fallback branch. -/
def cohortFallbackParams : Params where
  manual_hp := []
  role_position_id := none
  min_hp_rating := 5

/-- Insertion into an ascending list of rationals. -/
def insertLe (x : ℚ) : List ℚ → List ℚ
  | [] => [x]
  | y :: ys => if x ≤ y then x :: y :: ys else y :: insertLe x ys

/-- Ascending insertion sort: the ordering `PERCENTILE_CONT` aggregates over. -/
def sortLe (l : List ℚ) : List ℚ := l.foldr insertLe []

/-- `PERCENTILE_CONT(0.5) WITHIN GROUP (ORDER BY x)`: the exact median with
linear interpolation between the two central values, `none` (SQL NULL) on an
empty input. -/
def percentileCont05 (l : List ℚ) : Option ℚ :=
  let srt := sortLe l
  if srt.length = 0 then none
  else if srt.length % 2 = 1 then srt[srt.length / 2]?
  else do
    let a ← srt[srt.length / 2 - 1]?
    let b ← srt[srt.length / 2]?
    pure ((a + b) / 2)

/-- Maximum of a list of years, `none` on an empty table. -/
def maxYear : List Int → Option Int
  | [] => none
  | y :: ys =>
    match maxYear ys with
    | none => some y
    | some m => some (max y m)

/-- The `latest` CTE: `MAX(year)` over the whole `competencies_yearly` table. -/
def comp_year (s : Snapshot) : Option Int :=
  maxYear (s.competencies_yearly.map (fun c => c.year))

/-- A `(employee, variable, nullable value)` row of the numeric score union. -/
structure ScoreRow where
  employee_id : String
  tv_name : String
  user_score : Option ℚ
deriving DecidableEq, Repr

/-- Competency branch of the score union: rows of the latest year only. -/
def compScores (s : Snapshot) : List ScoreRow :=
  (s.competencies_yearly.filter (fun c => comp_year s == some c.year)).map
    (fun c => ⟨c.employee_id, c.pillar_code, c.score⟩)

/-- Psychometric branch of the score union: one row per named numeric scale
for every `profiles_psych` row, nullable scores included. -/
def psychScores (s : Snapshot) : List ScoreRow :=
  (s.profiles_psych.map (fun r => ⟨r.employee_id, "iq", r.iq⟩)) ++
  (s.profiles_psych.map (fun r => ⟨r.employee_id, "gtq", r.gtq⟩)) ++
  (s.profiles_psych.map (fun r => ⟨r.employee_id, "tiki", r.tiki⟩)) ++
  (s.profiles_psych.map (fun r => ⟨r.employee_id, "faxtor", r.faxtor⟩)) ++
  (s.profiles_psych.map (fun r => ⟨r.employee_id, "pauli", r.pauli⟩))

/-- The `all_numeric_scores` CTE: competency rows at the latest year plus the
five psychometric scales, for every employee. -/
def all_numeric_scores (s : Snapshot) : List ScoreRow :=
  compScores s ++ psychScores s

/-- The rows the `baseline_numeric` CTE aggregates: the numeric score union
restricted to members of `final_bench`. -/
def benchNumericRows (s : Snapshot) (p : Params) : List ScoreRow :=
  (all_numeric_scores s).filter (fun r => inFinalBench s p r.employee_id)

/-- Nullable cohort scores of one numeric variable. -/
def baselineRows (s : Snapshot) (p : Params) (tv : String) : List (Option ℚ) :=
  ((benchNumericRows s p).filter (fun r => r.tv_name == tv)).map
    (fun r => r.user_score)

/-- Whether `baseline_numeric` has a row for this variable: at least one
cohort score row exists (a NULL score still creates the group). -/
def baselineGroupExists (s : Snapshot) (p : Params) (tv : String) : Bool :=
  !(baselineRows s p tv).isEmpty

/-- The `baseline_score` of a numeric variable: median of the non-NULL cohort
scores, NULL when there are none. -/
def baseline_numeric (s : Snapshot) (p : Params) (tv : String) : Option ℚ :=
  percentileCont05 ((baselineRows s p tv).filterMap id)

/-- The `reverse_list` CTE: behavioral scales scored with the reverse formula. -/
def reverseScales : List String := ["Papi_I", "Papi_K", "Papi_Z", "Papi_T"]

/-- The `is_reverse` flag of `baseline_papi`. -/
def is_reverse (tv : String) : Bool := reverseScales.contains tv

/-- Nullable cohort scores of one PAPI scale (`papi_scores` joined with
`final_bench`). -/
def benchPapiRows (s : Snapshot) (p : Params) (tv : String) : List (Option ℚ) :=
  (s.papi_scores.filter
      (fun r => r.scale_code == tv && inFinalBench s p r.employee_id)).map
    (fun r => r.score)

/-- Whether `baseline_papi` has a row for this scale. -/
def papiGroupExists (s : Snapshot) (p : Params) (tv : String) : Bool :=
  !(benchPapiRows s p tv).isEmpty

/-- The `baseline_score` of a PAPI scale: median of non-NULL cohort scores. -/
def baseline_papi (s : Snapshot) (p : Params) (tv : String) : Option ℚ :=
  percentileCont05 ((benchPapiRows s p tv).filterMap id)

/-- Snapshot extended by one competency row (the raw table grows by a row). -/
def addComp (s : Snapshot) (c : CompRow) : Snapshot :=
  { s with competencies_yearly := s.competencies_yearly ++ [c] }

/-- Snapshot extended by one psychometric profile row. -/
def addPsych (s : Snapshot) (r : PsychRow) : Snapshot :=
  { s with profiles_psych := s.profiles_psych ++ [r] }

/-- Snapshot extended by one PAPI score row. -/
def addPapi (s : Snapshot) (r : PapiRow) : Snapshot :=
  { s with papi_scores := s.papi_scores ++ [r] }

/-- Snapshot exercising the baseline medians: the manual cohort B1–B4 has
readings 10, 20, 30 on pillar `agility` (odd count) and 10, 20, 30, 40 on
pillar `drive` (even count); the non-cohort employee E9 has readings 999 on
both pillars in the same year. -/
def medianDemo : Snapshot where
  employees :=
    [⟨"B1", "P", 1⟩, ⟨"B2", "Q", 1⟩, ⟨"B3", "R", 1⟩, ⟨"B4", "S", 1⟩,
     ⟨"E9", "T", 2⟩]
  performance_yearly := []
  competencies_yearly :=
    [⟨"B1", "agility", 2024, some 10⟩, ⟨"B2", "agility", 2024, some 20⟩,
     ⟨"B3", "agility", 2024, some 30⟩,
     ⟨"B1", "drive", 2024, some 10⟩, ⟨"B2", "drive", 2024, some 20⟩,
     ⟨"B3", "drive", 2024, some 30⟩, ⟨"B4", "drive", 2024, some 40⟩,
     ⟨"E9", "agility", 2024, some 999⟩, ⟨"E9", "drive", 2024, some 999⟩]
  profiles_psych := []
  papi_scores := []
  talent_variables_mapping := []
  talent_group_weights := []

/-- Selection picking B1–B4 manually. -/
def medianDemoParams : Params where
  manual_hp := ["B1", "B2", "B3", "B4"]
  role_position_id := none
  min_hp_rating := 5

/-- `NULLIF(x, 0)`: NULL when the argument is 0 (or already NULL). -/
def nullif0 (x : Option ℚ) : Option ℚ :=
  match x with
  | some v => if v = 0 then none else some v
  | none => none

/-- `(user_score / NULLIF(baseline_score, 0)) * 100` with SQL NULL
propagation: NULL whenever the score or the guarded baseline is NULL. -/
def ratio100 (user baseline : Option ℚ) : Option ℚ :=
  match user, nullif0 baseline with
  | some u, some b => some (u / b * 100)
  | _, _ => none

/-- The `CASE WHEN is_reverse` match-rate expression of `papi_tv`:
`((2*baseline - score) / NULLIF(baseline,0)) * 100` on reverse scales and
`(score / NULLIF(baseline,0)) * 100` otherwise. -/
def papiRate (isRev : Bool) (user baseline : Option ℚ) : Option ℚ :=
  match user, nullif0 baseline with
  | some u, some b => some (if isRev then (2 * b - u) / b * 100 else u / b * 100)
  | _, _ => none

/-- A `(employee, variable, nullable match rate)` row of the `all_tv` union. -/
structure TvRow where
  employee_id : String
  tv_name : String
  tv_match_rate : Option ℚ
deriving DecidableEq, Repr

/-- The `numeric_tv` CTE: every score row joined to its variable's baseline
row (the join drops variables with no cohort score row at all). -/
def numeric_tv (s : Snapshot) (p : Params) : List TvRow :=
  (all_numeric_scores s).filterMap (fun r =>
    if baselineGroupExists s p r.tv_name then
      some ⟨r.employee_id, r.tv_name, ratio100 r.user_score (baseline_numeric s p r.tv_name)⟩
    else none)

/-- The `papi_tv` CTE: every `papi_scores` row joined to its scale's
baseline row, scored with the reverse formula on reverse scales. -/
def papi_tv (s : Snapshot) (p : Params) : List TvRow :=
  s.papi_scores.filterMap (fun r =>
    if papiGroupExists s p r.scale_code then
      some ⟨r.employee_id, r.scale_code,
        papiRate (is_reverse r.scale_code) r.score (baseline_papi s p r.scale_code)⟩
    else none)

/-- Leading-space removal, the direction-agnostic half of SQL `TRIM`. -/
def dropLead : List Char → List Char
  | [] => []
  | c :: cs => if c == ' ' then dropLead cs else c :: cs

/-- SQL `TRIM`: spaces removed from both ends. -/
def trimChars (l : List Char) : List Char :=
  (dropLead (dropLead l.reverse).reverse)

/-- `UPPER(TRIM(x))`: the normalization applied to categorical values. -/
def normCat (x : String) : String :=
  String.mk ((trimChars x.data).map Char.toUpper)

/-- Normalized non-NULL cohort values of one categorical column
(`profiles_psych` joined with `final_bench`). -/
def catValues (s : Snapshot) (p : Params) (f : PsychRow → Option String) :
    List String :=
  (s.profiles_psych.filter (fun r => inFinalBench s p r.employee_id)).filterMap
    (fun r => (f r).map normCat)

/-- Occurrences of a value in a list of values. -/
def countEq (l : List String) (v : String) : Nat :=
  (l.filter (fun x => x == v)).length

/-- Strict lexicographic order on character lists. -/
def charListLt : List Char → List Char → Bool
  | [], [] => false
  | [], _ :: _ => true
  | _ :: _, [] => false
  | a :: as, b :: bs => if a < b then true else if b < a then false else charListLt as bs

/-- `MODE() WITHIN GROUP (ORDER BY v)`: a most frequent value, NULL on an
empty input.  Among equally frequent values the one earliest in the
aggregate's ordering is chosen (deterministic tie-break). -/
def sqlMode (l : List String) : Option String :=
  l.foldl (fun acc v =>
    match acc with
    | none => some v
    | some w =>
      if countEq l w < countEq l v then some v
      else if countEq l v == countEq l w && charListLt v.data w.data then some v
      else acc) none

/-- The `baseline_cat` value for `mbti`. -/
def mbtiBaseline (s : Snapshot) (p : Params) : Option String :=
  sqlMode (catValues s p (fun r => r.mbti))

/-- The `baseline_cat` value for `disc`. -/
def discBaseline (s : Snapshot) (p : Params) : Option String :=
  sqlMode (catValues s p (fun r => r.disc))

/-- The `CASE` expression of `categorical_tv`: 100 when the normalized value
equals the baseline mode, else 0 — a NULL value or NULL baseline compares as
unknown and falls to the `ELSE 0` arm. -/
def catMatch (v : Option String) (b : Option String) : ℚ :=
  match v, b with
  | some vv, some bb => if normCat vv = bb then 100 else 0
  | _, _ => 0

/-- The `categorical_tv` CTE: every `profiles_psych` row cross-joined with
the two `baseline_cat` rows; the match rate is always defined (100 or 0). -/
def categorical_tv (s : Snapshot) (p : Params) : List TvRow :=
  s.profiles_psych.flatMap (fun r =>
    [⟨r.employee_id, "mbti", some (catMatch r.mbti (mbtiBaseline s p))⟩,
     ⟨r.employee_id, "disc", some (catMatch r.disc (discBaseline s p))⟩])

/-- The `all_tv` CTE: union of the three match-rate families. -/
def all_tv (s : Snapshot) (p : Params) : List TvRow :=
  numeric_tv s p ++ papi_tv s p ++ categorical_tv s p

/-- `SUM(x)` over a group: NULL values are skipped; NULL when no non-NULL
value exists. -/
def sqlSum (l : List (Option ℚ)) : Option ℚ :=
  if (l.filterMap id).isEmpty then none else some (l.filterMap id).sum

/-- SQL numeric division: NULL-strict on NULL operands, a raised
division-by-zero error on a non-NULL numerator and a zero denominator. -/
def sqlDiv : Option ℚ → Option ℚ → Except Unit (Option ℚ)
  | some x, some y => if y = 0 then .error () else .ok (some (x / y))
  | _, _ => .ok none

/-- Keep-first deduplication relative to already seen keys. -/
def dedupFrom {α : Type} [BEq α] (seen : List α) : List α → List α
  | [] => []
  | a :: as => if seen.contains a then dedupFrom seen as else a :: dedupFrom (a :: seen) as

/-- Keep-first deduplication (the distinct grouping keys of a `GROUP BY`). -/
def dedup {α : Type} [BEq α] (l : List α) : List α := dedupFrom [] l

/-- A row of `all_tv JOIN talent_variables_mapping USING (tv_name)`. -/
structure JoinedRow where
  employee_id : String
  tgv_name : String
  rate : Option ℚ
  weight : ℚ
deriving DecidableEq, Repr

/-- The join feeding the `tgv_match` aggregation. -/
def tgvJoinedRows (s : Snapshot) (p : Params) : List JoinedRow :=
  (all_tv s p).flatMap (fun a =>
    (s.talent_variables_mapping.filter (fun m => m.tv_name == a.tv_name)).map
      (fun m => ⟨a.employee_id, m.tgv_name, a.tv_match_rate, m.tv_weight⟩))

/-- The `GROUP BY (employee_id, tgv_name)` keys of `tgv_match`. -/
def tgvKeys (s : Snapshot) (p : Params) : List (String × String) :=
  dedup ((tgvJoinedRows s p).map (fun j => (j.employee_id, j.tgv_name)))

/-- The joined rows of one `(employee, group)` aggregation group. -/
def tgvGroupRows (s : Snapshot) (p : Params) (k : String × String) :
    List JoinedRow :=
  (tgvJoinedRows s p).filter (fun j => j.employee_id == k.1 && j.tgv_name == k.2)

/-- The `tgv_match_rate` expression
`SUM(tv_match_rate * tv_weight) / SUM(tv_weight)` of one group — the one
division of the query with no `NULLIF` guard. -/
def tgvRate (s : Snapshot) (p : Params) (k : String × String) :
    Except Unit (Option ℚ) :=
  sqlDiv
    (sqlSum ((tgvGroupRows s p k).map (fun j => j.rate.map (fun x => x * j.weight))))
    (sqlSum ((tgvGroupRows s p k).map (fun j => some j.weight)))

/-- A row of the `tgv_match` CTE. -/
structure TgvRow where
  employee_id : String
  tgv_name : String
  tgv_match_rate : Option ℚ
deriving DecidableEq, Repr

/-- Evaluation of a list of fallible computations, failing as soon as any
element fails (a raised SQL error aborts the whole query). -/
def mapExcept {α β : Type} (f : α → Except Unit β) : List α → Except Unit (List β)
  | [] => .ok []
  | a :: as =>
    match f a with
    | .error e => .error e
    | .ok b =>
      match mapExcept f as with
      | .error e => .error e
      | .ok bs => .ok (b :: bs)

/-- The `tgv_match` CTE: one row per `(employee, group)` key. -/
def tgv_match (s : Snapshot) (p : Params) : Except Unit (List TgvRow) :=
  mapExcept (fun k =>
    match tgvRate s p k with
    | .error e => .error e
    | .ok r => .ok ⟨k.1, k.2, r⟩) (tgvKeys s p)

/-- `tgv_match JOIN talent_group_weights USING (tgv_name)`, keeping the
products `tgv_match_rate * tgv_weight`. -/
def finalJoinedRows (rows : List TgvRow) (s : Snapshot) :
    List (String × Option ℚ) :=
  rows.flatMap (fun t =>
    (s.talent_group_weights.filter (fun g => g.tgv_name == t.tgv_name)).map
      (fun g => (t.employee_id, t.tgv_match_rate.map (fun x => x * g.tgv_weight))))

/-- The `final_match` aggregation over given `tgv_match` rows:
`SUM(tgv_match_rate * tgv_weight)` per employee — a weighted sum with no
division by the total group weight. -/
def final_match_of (rows : List TgvRow) (s : Snapshot) :
    List (String × Option ℚ) :=
  (dedup ((finalJoinedRows rows s).map (fun x => x.1))).map
    (fun eid =>
      (eid, sqlSum (((finalJoinedRows rows s).filter (fun x => x.1 == eid)).map
        (fun x => x.2))))

/-- The `final_match` CTE. -/
def final_match (s : Snapshot) (p : Params) :
    Except Unit (List (String × Option ℚ)) :=
  match tgv_match s p with
  | .error e => .error e
  | .ok rows => .ok (final_match_of rows s)

/-- A row of the query's final `SELECT`. -/
structure OutRow where
  employee_id : String
  fullname : String
  final_match_rate : Option ℚ
deriving DecidableEq, Repr

/-- The rows of the final `SELECT` before `ORDER BY`/`LIMIT`:
`final_match JOIN employees USING (employee_id)`. -/
def outRows (s : Snapshot) (p : Params) : Except Unit (List OutRow) :=
  match final_match s p with
  | .error e => .error e
  | .ok fm =>
    .ok (fm.flatMap (fun x =>
      (s.employees.filter (fun e => e.employee_id == x.1)).map
        (fun e => ⟨e.employee_id, e.fullname, x.2⟩)))

/-- `ORDER BY final_match_rate DESC` comparison on nullable scores: in
Postgres a descending order puts NULLs first, so a NULL key may precede
anything and a non-NULL key precedes exactly the keys at or below it. -/
def scoreKeyLeB (a b : Option ℚ) : Bool :=
  match a, b with
  | none, _ => true
  | some _, none => false
  | some x, some y => decide (y ≤ x)

/-- Row order of the final `SELECT`. -/
def rowLe (a b : OutRow) : Prop :=
  scoreKeyLeB a.final_match_rate b.final_match_rate = true

/-- The outputs the query may produce: some ordering of the result rows that
is sorted by `final_match_rate DESC` (ties in any order — the query has no
further sort key), truncated by `LIMIT 200`.  A failed query produces no
output. -/
def engineOutputs (s : Snapshot) (p : Params) (out : List OutRow) : Prop :=
  ∃ rows perm, outRows s p = .ok rows ∧ List.Perm rows perm ∧
    List.Sorted rowLe perm ∧ out = perm.take 200

/-- Modelled from the spec: stage-1 rollup as §4.5 words it — the weighted
mean `Σ(match_rate_v * weight_v) / Σ(weight_v)` over only the variables with
a defined match rate, undefined when there are none. -/
def specTgvRate (rows : List JoinedRow) : Option ℚ :=
  let defined := rows.filter (fun j => !j.rate.isNone)
  if defined.isEmpty then none
  else some ((defined.filterMap (fun j => j.rate.map (fun x => x * j.weight))).sum /
    (defined.map (fun j => j.weight)).sum)

/-- Rollup demo: cohort {M}; variables v1 (weight 1) and v2 (weight 3) in
group G of group-weight 2; employee E matches v1 at 100 and v2 at 50. -/
def rollupDemo : Snapshot where
  employees := [⟨"M", "Mia", 1⟩, ⟨"E", "Eko", 1⟩]
  performance_yearly := []
  competencies_yearly :=
    [⟨"M", "v1", 2024, some 10⟩, ⟨"M", "v2", 2024, some 10⟩,
     ⟨"E", "v1", 2024, some 10⟩, ⟨"E", "v2", 2024, some 5⟩]
  profiles_psych := []
  papi_scores := []
  talent_variables_mapping := [⟨"v1", "G", 1⟩, ⟨"v2", "G", 3⟩]
  talent_group_weights := [⟨"G", 2⟩]

/-- Selection picking M manually. -/
def rollupDemoParams : Params where
  manual_hp := ["M"]
  role_position_id := none
  min_hp_rating := 5

/-- Dilution demo for C3: v1 (weight 1) is matched at 100 by E, while E's
`iq` (weight 3) is NULL, so its match rate is undefined. -/
def dilutionDemo : Snapshot where
  employees := [⟨"M", "Mia", 1⟩, ⟨"E", "Eko", 1⟩]
  performance_yearly := []
  competencies_yearly :=
    [⟨"M", "v1", 2024, some 10⟩, ⟨"E", "v1", 2024, some 10⟩]
  profiles_psych :=
    [⟨"M", some 100, none, none, none, none, none, none⟩,
     ⟨"E", none, none, none, none, none, none, none⟩]
  papi_scores := []
  talent_variables_mapping := [⟨"v1", "G", 1⟩, ⟨"iq", "G", 3⟩]
  talent_group_weights := [⟨"G", 1⟩]

/-- Zero-baseline demo for C4: the cohort's only `z` reading is 0, so the
baseline of `z` is exactly 0; E matches `v1` at 100 and has a `z` reading. -/
def zeroBaselineDemo : Snapshot where
  employees := [⟨"M", "Mia", 1⟩, ⟨"E", "Eko", 1⟩]
  performance_yearly := []
  competencies_yearly :=
    [⟨"M", "v1", 2024, some 10⟩, ⟨"M", "z", 2024, some 0⟩,
     ⟨"E", "v1", 2024, some 10⟩, ⟨"E", "z", 2024, some 7⟩]
  profiles_psych := []
  papi_scores := []
  talent_variables_mapping := [⟨"v1", "G", 1⟩, ⟨"z", "G", 1⟩]
  talent_group_weights := [⟨"G", 1⟩]

/-- Zero-weight demo for C7: the only variable of group G carries weight 0
(weights ≥ 0 as configured), and E has a defined match rate on it. -/
def zeroWeightDemo : Snapshot where
  employees := [⟨"M", "Mia", 1⟩, ⟨"E", "Eko", 1⟩]
  performance_yearly := []
  competencies_yearly :=
    [⟨"M", "v1", 2024, some 10⟩, ⟨"E", "v1", 2024, some 10⟩]
  profiles_psych := []
  papi_scores := []
  talent_variables_mapping := [⟨"v1", "G", 0⟩]
  talent_group_weights := [⟨"G", 1⟩]

/-- Tie demo for C5: E1 and E2 both end with final score 100. -/
def tieDemo : Snapshot where
  employees := [⟨"E1", "Ana", 1⟩, ⟨"E2", "Ben", 1⟩]
  performance_yearly := []
  competencies_yearly :=
    [⟨"E1", "v1", 2024, some 10⟩, ⟨"E2", "v1", 2024, some 10⟩]
  profiles_psych := []
  papi_scores := []
  talent_variables_mapping := [⟨"v1", "G", 1⟩]
  talent_group_weights := [⟨"G", 1⟩]

/-- Selection picking E1 and E2 manually. -/
def tieDemoParams : Params where
  manual_hp := ["E1", "E2"]
  role_position_id := none
  min_hp_rating := 5

/-- NULL-final demo for C9: E's only mapped variable is `iq`, which is NULL
for E, so E's final score is NULL (undefined) — yet E has group rows. -/
def nullFinalDemo : Snapshot where
  employees := [⟨"M", "Mia", 1⟩, ⟨"E", "Eko", 1⟩]
  performance_yearly := []
  competencies_yearly := []
  profiles_psych :=
    [⟨"M", some 100, none, none, none, none, none, none⟩,
     ⟨"E", none, none, none, none, none, none, none⟩]
  papi_scores := []
  talent_variables_mapping := [⟨"iq", "G", 1⟩]
  talent_group_weights := [⟨"G", 1⟩]

/-- Missing-value demo for C8: E's `iq` and `mbti` are NULL; the cohort
member M has `iq` 100 and `mbti` INTJ. -/
def missingDemo : Snapshot where
  employees := [⟨"M", "Mia", 1⟩, ⟨"E", "Eko", 1⟩]
  performance_yearly := []
  competencies_yearly := []
  profiles_psych :=
    [⟨"M", some 100, none, none, none, none, some "INTJ", none⟩,
     ⟨"E", none, none, none, none, none, none, none⟩]
  papi_scores := []
  talent_variables_mapping := [⟨"iq", "G", 1⟩]
  talent_group_weights := [⟨"G", 1⟩]

/-- Selection picking M manually (shared by several demos). -/
def manualMParams : Params where
  manual_hp := ["M"]
  role_position_id := none
  min_hp_rating := 5

/-- The single-quote character used by the f-string wrapping in
`build_match_sql` (`f"'{emp}'"`). -/
def squo : Char := Char.ofNat 39

/-- The separator of `",".join`. -/
def comma : Char := ','

/-- The Python expression `f"'{emp}'"`: the id wrapped in single quotes with
no escaping of quote characters inside the id. -/
def quoteChars (w : List Char) : List Char := squo :: (w ++ [squo])

/-- Line 66 of `app.py`: `",".join(f"'{emp}'" for emp in manual_hp_ids)`,
the text of the manual-id array literal between `ARRAY[` and `]`. -/
def manualListChars : List (List Char) → List Char
  | [] => []
  | [w] => quoteChars w
  | w :: ws => quoteChars w ++ comma :: manualListChars ws

/-- SQL lexing of the body of a string-literal sequence, having already
consumed the opening quote of the current literal: `acc` is the content read
so far, `out` the completed literals.  A quote closes the literal unless
doubled (`\x27\x27` reads as one escaped quote); after a closing quote only
a comma followed by a new opening quote, or the end of input, is accepted.
Anything else is not a well-formed literal sequence (`none`). -/
def lexArr (acc : List Char) (out : List (List Char)) :
    List Char → Option (List (List Char))
  | [] => none
  | c :: rest =>
    if c = squo then
      match rest with
      | [] => some (out ++ [acc])
      | c2 :: rest2 =>
        if c2 = squo then lexArr (acc ++ [squo]) out rest2
        else if c2 = comma then
          match rest2 with
          | [] => none
          | c3 :: rest3 =>
            if c3 = squo then lexArr [] (out ++ [acc]) rest3 else none
        else none
    else lexArr (acc ++ [c]) out rest

/-- SQL lexing of a non-empty comma-separated sequence of string literals:
the grammar the generated array literal's id list is meant to satisfy.  The
result is the list of literal contents, or `none` when the text is not a
well-formed literal sequence. -/
def lexSeq : List Char → Option (List (List Char))
  | [] => none
  | c :: rest => if c = squo then lexArr [] [] rest else none

/-- The input remaining after the current literal's closing quote when the
ids `ids` are still to be rendered. -/
def joinRest (ids : List (List Char)) : List Char :=
  if ids = [] then [] else comma :: manualListChars ids

theorem mem_role_set {s : Snapshot} {p : Params} {eid : String} :
    eid ∈ role_set s p ↔
      ∃ e ∈ s.employees, e.employee_id = eid ∧ p.role_position_id = some e.position_id ∧
        ∃ py ∈ s.performance_yearly, py.employee_id = e.employee_id ∧
          p.min_hp_rating ≤ py.rating := by
  simp only [role_set, List.mem_map, List.mem_filter, Bool.and_eq_true,
    List.any_eq_true, decide_eq_true_eq, beq_iff_eq]
  constructor
  · rintro ⟨e, ⟨he, hrid, py, hpy, hpyid, hr⟩, rfl⟩
    refine ⟨e, he, rfl, ?_, py, hpy, hpyid, hr⟩
    cases h : p.role_position_id with
    | none => rw [h] at hrid; exact absurd hrid (by simp)
    | some rid =>
      rw [h] at hrid
      simp only [beq_iff_eq] at hrid
      rw [hrid]
  · rintro ⟨e, he, rfl, hrid, py, hpy, hpyid, hr⟩
    refine ⟨e, ⟨he, ?_, py, hpy, hpyid, hr⟩, rfl⟩
    rw [hrid]; simp

theorem roleQualifies_iff_mem {s : Snapshot} {p : Params} {eid : String} :
    roleQualifies s p eid ↔ eid ∈ role_set s p := by
  rw [mem_role_set, roleQualifies]
  constructor
  · rintro ⟨e, he, heid, hrid, py, hpy, hpyid, hr⟩
    exact ⟨e, he, heid, hrid, py, hpy, by rw [heid, hpyid], hr⟩
  · rintro ⟨e, he, heid, hrid, py, hpy, hpyid, hr⟩
    exact ⟨e, he, heid, hrid, py, hpy, by rw [hpyid, heid], hr⟩

theorem ratingQualifies_iff_mem {s : Snapshot} {p : Params} {eid : String} :
    ratingQualifies s p eid ↔ eid ∈ fallback_benchmark s p := by
  simp only [ratingQualifies, fallback_benchmark, List.mem_map, List.mem_filter,
    decide_eq_true_eq]
  constructor
  · rintro ⟨py, hpy, heid, hr⟩
    exact ⟨py, ⟨hpy, hr⟩, heid⟩
  · rintro ⟨py, ⟨hpy, hr⟩, heid⟩
    exact ⟨py, hpy, heid, hr⟩

theorem benchmark_set_eq_nil_iff {s : Snapshot} {p : Params} :
    benchmark_set s p = [] ↔ ¬ ∃ eid, eid ∈ p.manual_hp ∨ roleQualifies s p eid := by
  rw [benchmark_set, List.append_eq_nil]
  constructor
  · rintro ⟨h1, h2⟩ ⟨eid, h | h⟩
    · rw [h1] at h; exact List.not_mem_nil eid h
    · rw [roleQualifies_iff_mem, h2] at h; exact List.not_mem_nil eid h
  · intro h
    constructor
    · cases hm : p.manual_hp with
      | nil => rfl
      | cons a l => exact absurd ⟨a, Or.inl (by rw [hm]; exact List.mem_cons_self a l)⟩ h
    · cases hr : role_set s p with
      | nil => rfl
      | cons a l =>
        refine absurd ⟨a, Or.inr ?_⟩ h
        rw [roleQualifies_iff_mem, hr]
        exact List.mem_cons_self a l

/-- C1. Cohort resolution precedence and fallback: whenever the union of the
manual id set and the role-qualifying set is non-empty, the resolved cohort
(`final_bench`) is exactly that union and the global fallback is not applied;
when the union is empty, the cohort is exactly the organization-wide set of
employees with a rating at or above `min_hp_rating`. -/
theorem cohort_resolution_c1 (s : Snapshot) (p : Params) :
    ((∃ eid, eid ∈ p.manual_hp ∨ roleQualifies s p eid) →
      ∀ eid, inFinalBench s p eid = true ↔ (eid ∈ p.manual_hp ∨ roleQualifies s p eid)) ∧
    ((¬ ∃ eid, eid ∈ p.manual_hp ∨ roleQualifies s p eid) →
      ∀ eid, inFinalBench s p eid = true ↔ ratingQualifies s p eid) := by
  constructor
  · intro hne eid
    rw [inFinalBench, if_neg (by rw [benchmark_set_eq_nil_iff]; exact not_not_intro hne)]
    simp only [List.contains, List.elem_iff]
    rw [benchmark_set, List.mem_append, roleQualifies_iff_mem]
  · intro hemp eid
    rw [inFinalBench, if_pos (benchmark_set_eq_nil_iff.mpr hemp)]
    simp only [List.contains, List.elem_iff]
    rw [ratingQualifies_iff_mem]

/-- Witness for C1: on `cohortDemo` the explicit union {E1} ∪ {E2} is used
(E4 qualifies only for the fallback and is excluded), and with an empty
selection the fallback selects exactly the rating-5 employees. -/
theorem cohort_resolution_c1_witness :
    (inFinalBench cohortDemo cohortDemoParams "E2" = true ∧
      inFinalBench cohortDemo cohortDemoParams "E4" = false) ∧
    (inFinalBench cohortDemo cohortFallbackParams "E4" = true) := by
  refine ⟨⟨?_, ?_⟩, ?_⟩
  · exact ((cohort_resolution_c1 cohortDemo cohortDemoParams).1
      ⟨"E1", Or.inl (by decide)⟩ "E2").mpr
      (Or.inr (⟨⟨"E2", "Ben", 20⟩, by decide, rfl, by decide,
        ⟨"E2", 5⟩, by decide, rfl, by decide⟩))
  · decide
  · exact ((cohort_resolution_c1 cohortDemo cohortFallbackParams).2
      (by
        rintro ⟨eid, h | h⟩
        · exact absurd h (by simp [cohortFallbackParams])
        · rcases h with ⟨e, _, _, hrid, _⟩
          exact absurd hrid (by simp [cohortFallbackParams])) "E4").mpr
      ⟨⟨"E4", 5⟩, by decide, rfl, by decide⟩

theorem maxYear_eq_none_iff {ys : List Int} : maxYear ys = none ↔ ys = [] := by
  cases ys with
  | nil => simp [maxYear]
  | cons a l =>
    simp only [maxYear]
    cases maxYear l <;> simp

theorem maxYear_append_one (ys : List Int) (y : Int) :
    maxYear (ys ++ [y]) =
      some (match maxYear ys with | none => y | some m => max m y) := by
  induction ys with
  | nil => rfl
  | cons a ys ih =>
    show (match maxYear (ys ++ [y]) with
          | none => some a
          | some m => some (max a m)) = _
    rw [ih]
    cases h : maxYear ys with
    | none => simp [maxYear, h]
    | some m => simp [maxYear, h, max_assoc]

theorem le_of_mem_maxYear {ys : List Int} {y m : Int}
    (hy : y ∈ ys) (hm : maxYear ys = some m) : y ≤ m := by
  induction ys generalizing m with
  | nil => exact absurd hy (List.not_mem_nil y)
  | cons a ys ih =>
    simp only [maxYear] at hm
    rcases List.mem_cons.mp hy with rfl | hy'
    · cases h : maxYear ys with
      | none => rw [h] at hm; simp only [Option.some.injEq] at hm; omega
      | some m' =>
        rw [h] at hm
        simp only [Option.some.injEq] at hm
        have := le_max_left y m'
        omega
    · cases h : maxYear ys with
      | none =>
        rw [maxYear_eq_none_iff] at h
        subst h
        exact absurd hy' (List.not_mem_nil y)
      | some m' =>
        rw [h] at hm
        simp only [Option.some.injEq] at hm
        have h1 := ih hy' h
        have := le_max_right a m'
        omega

theorem maxYear_append_eq {ys : List Int} {y : Int}
    (h : ∃ z ∈ ys, y ≤ z) : maxYear (ys ++ [y]) = maxYear ys := by
  obtain ⟨z, hz, hle⟩ := h
  cases hm : maxYear ys with
  | none =>
    rw [maxYear_eq_none_iff] at hm
    subst hm
    exact absurd hz (List.not_mem_nil z)
  | some m =>
    rw [maxYear_append_one, hm]
    have hzm := le_of_mem_maxYear hz hm
    simp only [Option.some.injEq]
    exact max_eq_left (hle.trans hzm)

theorem comp_year_addComp {s : Snapshot} {c : CompRow}
    (h : ∃ d ∈ s.competencies_yearly, c.year ≤ d.year) :
    comp_year (addComp s c) = comp_year s := by
  obtain ⟨d, hd, hle⟩ := h
  simp only [comp_year, addComp, List.map_append, List.map_cons, List.map_nil]
  exact maxYear_append_eq ⟨d.year, List.mem_map_of_mem _ hd, hle⟩

theorem inFinalBench_addComp (s : Snapshot) (c : CompRow) (p : Params)
    (eid : String) : inFinalBench (addComp s c) p eid = inFinalBench s p eid := rfl

theorem inFinalBench_addPsych (s : Snapshot) (r : PsychRow) (p : Params)
    (eid : String) : inFinalBench (addPsych s r) p eid = inFinalBench s p eid := rfl

theorem inFinalBench_addPapi (s : Snapshot) (r : PapiRow) (p : Params)
    (eid : String) : inFinalBench (addPapi s r) p eid = inFinalBench s p eid := rfl

theorem baselineRows_addComp {s : Snapshot} {p : Params} {c : CompRow}
    (hyear : ∃ d ∈ s.competencies_yearly, c.year ≤ d.year)
    (hcoh : inFinalBench s p c.employee_id = false) (tv : String) :
    baselineRows (addComp s c) p tv = baselineRows s p tv := by
  have h1 : (addComp s c).competencies_yearly = s.competencies_yearly ++ [c] := rfl
  have h2 : (addComp s c).profiles_psych = s.profiles_psych := rfl
  have h6 := comp_year_addComp hyear
  simp only [baselineRows, benchNumericRows, all_numeric_scores, compScores,
    psychScores, h1, h2, h6, inFinalBench_addComp, List.filter_append,
    List.map_append]
  by_cases hy : (comp_year s == some c.year) = true
  · simp [List.filter_cons, hy, hcoh]
  · simp only [Bool.not_eq_true] at hy
    simp [List.filter_cons, hy]

theorem baselineRows_addPsych {s : Snapshot} {p : Params} {r : PsychRow}
    (hcoh : inFinalBench s p r.employee_id = false) (tv : String) :
    baselineRows (addPsych s r) p tv = baselineRows s p tv := by
  have h1 : (addPsych s r).competencies_yearly = s.competencies_yearly := rfl
  have h2 : (addPsych s r).profiles_psych = s.profiles_psych ++ [r] := rfl
  have h6 : comp_year (addPsych s r) = comp_year s := rfl
  simp only [baselineRows, benchNumericRows, all_numeric_scores, compScores,
    psychScores, h1, h2, h6, inFinalBench_addPsych, List.filter_append,
    List.map_append, List.map_cons, List.map_nil]
  simp [List.filter_cons, hcoh]

theorem benchPapiRows_addPapi {s : Snapshot} {p : Params} {r : PapiRow}
    (hcoh : inFinalBench s p r.employee_id = false) (tv : String) :
    benchPapiRows (addPapi s r) p tv = benchPapiRows s p tv := by
  have h1 : (addPapi s r).papi_scores = s.papi_scores ++ [r] := rfl
  simp only [benchPapiRows, h1, inFinalBench_addPapi, List.filter_append]
  simp [List.filter_cons, hcoh]

/-- C2. Baselines are exact medians of exactly the cohort's readings: the
pipeline computes 20 for cohort readings 10, 20, 30 and 25 for readings
10, 20, 30, 40 while a non-cohort reading of 999 is present in the snapshot;
a variable with zero non-NULL cohort readings has no baseline; and appending
a reading of a non-cohort employee (a competency row that does not move the
latest year, a psychometric row, or a PAPI row) changes no baseline. -/
theorem baseline_exact_median_c2 :
    (baseline_numeric medianDemo medianDemoParams "agility" = some 20 ∧
     baseline_numeric medianDemo medianDemoParams "drive" = some 25) ∧
    (∀ s p tv, (baselineRows s p tv).filterMap id = [] →
      baseline_numeric s p tv = none) ∧
    (∀ s p tv, (benchPapiRows s p tv).filterMap id = [] →
      baseline_papi s p tv = none) ∧
    (∀ s p c, (∃ d ∈ s.competencies_yearly, c.year ≤ d.year) →
      inFinalBench s p c.employee_id = false →
      ∀ tv, baseline_numeric (addComp s c) p tv = baseline_numeric s p tv) ∧
    (∀ s p r, inFinalBench s p r.employee_id = false →
      ∀ tv, baseline_numeric (addPsych s r) p tv = baseline_numeric s p tv) ∧
    (∀ s p r, inFinalBench s p r.employee_id = false →
      ∀ tv, baseline_papi (addPapi s r) p tv = baseline_papi s p tv) := by
  refine ⟨⟨?_, ?_⟩, ?_, ?_, ?_, ?_, ?_⟩
  · have h : (baselineRows medianDemo medianDemoParams "agility").filterMap id
        = [10, 20, 30] := by rfl
    rw [baseline_numeric, h]
    norm_num [percentileCont05, sortLe, insertLe]
  · have h : (baselineRows medianDemo medianDemoParams "drive").filterMap id
        = [10, 20, 30, 40] := by rfl
    rw [baseline_numeric, h]
    norm_num [percentileCont05, sortLe, insertLe]
  · intro s p tv h
    rw [baseline_numeric, h]
    rfl
  · intro s p tv h
    rw [baseline_papi, h]
    rfl
  · intro s p c hyear hcoh tv
    rw [baseline_numeric, baseline_numeric, baselineRows_addComp hyear hcoh]
  · intro s p r hcoh tv
    rw [baseline_numeric, baseline_numeric, baselineRows_addPsych hcoh]
  · intro s p r hcoh tv
    rw [baseline_papi, baseline_papi, benchPapiRows_addPapi hcoh]

/-- Witness for C2: the invariance clauses applied to `medianDemo` with a
concrete non-cohort competency row, psychometric row, and PAPI row. -/
theorem baseline_exact_median_c2_witness :
    baseline_numeric (addComp medianDemo ⟨"E9", "agility", 2024, some 7⟩)
        medianDemoParams "agility" =
      baseline_numeric medianDemo medianDemoParams "agility" ∧
    baseline_numeric (addPsych medianDemo ⟨"E9", some 1, none, none, none,
        none, none, none⟩) medianDemoParams "iq" =
      baseline_numeric medianDemo medianDemoParams "iq" ∧
    baseline_papi (addPapi medianDemo ⟨"E9", "Papi_I", some 3⟩)
        medianDemoParams "Papi_I" =
      baseline_papi medianDemo medianDemoParams "Papi_I" := by
  refine ⟨?_, ?_, ?_⟩
  · exact baseline_exact_median_c2.2.2.2.1 medianDemo medianDemoParams
      ⟨"E9", "agility", 2024, some 7⟩
      ⟨⟨"B1", "agility", 2024, some 10⟩, by decide, by decide⟩
      (by decide) "agility"
  · exact baseline_exact_median_c2.2.2.2.2.1 medianDemo medianDemoParams
      ⟨"E9", some 1, none, none, none, none, none, none⟩ (by decide) "iq"
  · exact baseline_exact_median_c2.2.2.2.2.2 medianDemo medianDemoParams
      ⟨"E9", "Papi_I", some 3⟩ (by decide) "Papi_I"

/-- C6 counterexample: with baseline 10 and offset 5, the reverse formula
scores the reading 5 at 150 and the reading 15 at 50 — readings symmetric
about the baseline do not receive equal match rates. -/
theorem reverse_symmetry_c6_counterexample :
    papiRate true (some 5) (some 10) = some 150 ∧
    papiRate true (some 15) (some 10) = some 50 ∧
    papiRate true (some 5) (some 10) ≠ papiRate true (some 15) (some 10) := by
  refine ⟨?_, ?_, ?_⟩ <;> norm_num [papiRate, nullif0]

/-- C6 as amended: the reverse formula reflects the reading across the
baseline — for baseline `b ≠ 0` the reverse match of `b - d` equals the
plain (non-reverse) match of `b + d`, and equals `(b + d) / b * 100`. -/
theorem reverse_reflection_c6 (b d : ℚ) (hb : b ≠ 0) :
    papiRate true (some (b - d)) (some b) =
      papiRate false (some (b + d)) (some b) ∧
    papiRate true (some (b - d)) (some b) = some ((b + d) / b * 100) := by
  have hn : nullif0 (some b) = some b := by simp [nullif0, hb]
  refine ⟨?_, ?_⟩ <;> simp only [papiRate, hn, if_true, if_false,
    Bool.false_eq_true, Option.some.injEq] <;> ring_nf

/-- Witness for C6 (amended): the reflection identity at `b = 10`, `d = 5`. -/
theorem reverse_reflection_c6_witness :
    papiRate true (some (10 - 5 : ℚ)) (some 10) =
      papiRate false (some (10 + 5 : ℚ)) (some 10) :=
  (reverse_reflection_c6 10 5 (by norm_num)).1

theorem sqlSum_eq_none {l : List (Option ℚ)} (h : l.filterMap id = []) :
    sqlSum l = none := by
  rw [sqlSum, h]
  rfl

theorem sqlSum_eq_some {l : List (Option ℚ)} (h : l.filterMap id ≠ []) :
    sqlSum l = some (l.filterMap id).sum := by
  rw [sqlSum, if_neg]
  simpa using h

theorem filterMap_id_map {α : Type} (f : α → Option ℚ) (l : List α) :
    (l.map f).filterMap id = l.filterMap f := by
  induction l with
  | nil => rfl
  | cons a l ih => cases h : f a <;> simp [List.filterMap_cons, h, ih]

theorem tgvRate_all_null {s : Snapshot} {p : Params} {k : String × String}
    (h : ∀ j ∈ tgvGroupRows s p k, j.rate = none) :
    tgvRate s p k = .ok none := by
  have hnum : sqlSum ((tgvGroupRows s p k).map
      (fun j => j.rate.map (fun x => x * j.weight))) = none := by
    apply sqlSum_eq_none
    rw [filterMap_id_map]
    rw [List.filterMap_eq_nil]
    intro j hj
    rw [h j hj]
    rfl
  rw [tgvRate, hnum]
  cases sqlSum ((tgvGroupRows s p k).map (fun j => some j.weight)) <;> rfl


theorem filterMap_some_map {α : Type} (g : α → ℚ) (l : List α) :
    l.filterMap (fun a => some (g a)) = l.map g := by
  induction l with
  | nil => rfl
  | cons a l ih => simp [List.filterMap_cons, ih]

theorem tgvRate_mixed {s : Snapshot} {p : Params} {k : String × String}
    (hdef : ∃ j ∈ tgvGroupRows s p k, j.rate ≠ none)
    (hden : ((tgvGroupRows s p k).map (fun j => j.weight)).sum ≠ 0) :
    tgvRate s p k = .ok (some
      (((tgvGroupRows s p k).filterMap (fun j => j.rate.map (fun x => x * j.weight))).sum /
        ((tgvGroupRows s p k).map (fun j => j.weight)).sum)) := by
  obtain ⟨j0, hj0, hr0⟩ := hdef
  have hnum : sqlSum ((tgvGroupRows s p k).map
      (fun j => j.rate.map (fun x => x * j.weight))) = some
      (((tgvGroupRows s p k).filterMap (fun j => j.rate.map (fun x => x * j.weight))).sum) := by
    rw [sqlSum_eq_some (by
      rw [filterMap_id_map]
      intro hnil
      rw [List.filterMap_eq_nil] at hnil
      cases h0 : j0.rate with
      | none => exact hr0 h0
      | some v =>
        have := hnil j0 hj0
        rw [h0] at this
        exact absurd this (by simp)), filterMap_id_map]
  have hden2 : sqlSum ((tgvGroupRows s p k).map (fun j => some j.weight)) = some
      (((tgvGroupRows s p k).map (fun j => j.weight)).sum) := by
    rw [sqlSum_eq_some (by
      rw [filterMap_id_map, filterMap_some_map]
      intro hnil
      rw [hnil] at hden
      exact hden rfl)]
    rw [filterMap_id_map, filterMap_some_map]
  rw [tgvRate, hnum, hden2, sqlDiv, if_neg hden]


theorem filterMap_rate_filter_defined (rows : List JoinedRow) :
    (rows.filter (fun j => j.rate.isSome)).filterMap
        (fun j => j.rate.map (fun x => x * j.weight)) =
      rows.filterMap (fun j => j.rate.map (fun x => x * j.weight)) := by
  induction rows with
  | nil => rfl
  | cons a l ih =>
    cases h : a.rate <;> simp [List.filter_cons, List.filterMap_cons, h, ih]

/-- C3 counterexample: in `dilutionDemo`, employee E has a defined match rate
only on v1 (100, weight 1); the `iq` rate (weight 3) is NULL.  The engine
produces group match 25 — the NULL variable's weight stays in the
denominator — while the claimed weight-normalized mean over the variables
with a defined match rate is 100. -/
theorem rollup_two_stage_c3_counterexample :
    tgvRate dilutionDemo manualMParams ("E", "G") = .ok (some 25) ∧
    specTgvRate (tgvGroupRows dilutionDemo manualMParams ("E", "G")) = some 100 := by
  have hrows : tgvGroupRows dilutionDemo manualMParams ("E", "G") =
      [⟨"E", "G", some (10 / 10 * 100), 1⟩, ⟨"E", "G", none, 3⟩] := rfl
  constructor
  · rw [tgvRate, hrows]
    norm_num [sqlSum, sqlDiv, List.filterMap_cons]
  · rw [specTgvRate, hrows]
    norm_num [List.filter_cons, List.filterMap_cons]

/-- C3 as amended: stage 1 aggregates `Σ(rate*weight) / Σ(weight)` where the
numerator ranges over the group's variables with a defined match rate but
the denominator sums the weights of every joined variable row (defined or
not); when no rate in the group is defined, the group match is NULL.  Stage 2
is the plain weighted sum `SUM(tgv_match_rate * tgv_weight)` with no
normalization.  Concretely, weights 1 and 3 on rates 100 and 50 give group
match 62.5, and a group weight of 2 gives final score 125, not 62.5. -/
theorem rollup_two_stage_c3 :
    (∀ s p k, (∀ j ∈ tgvGroupRows s p k, j.rate = none) →
      tgvRate s p k = .ok none) ∧
    (∀ s p k, (∃ j ∈ tgvGroupRows s p k, j.rate ≠ none) →
      ((tgvGroupRows s p k).map (fun j => j.weight)).sum ≠ 0 →
      tgvRate s p k = .ok (some
        ((((tgvGroupRows s p k).filter (fun j => j.rate.isSome)).filterMap
            (fun j => j.rate.map (fun x => x * j.weight))).sum /
          ((tgvGroupRows s p k).map (fun j => j.weight)).sum))) ∧
    (∀ rows s x, x ∈ final_match_of rows s →
      x.2 = sqlSum (((finalJoinedRows rows s).filter
        (fun y => y.1 == x.1)).map (fun y => y.2))) ∧
    (tgvRate rollupDemo rollupDemoParams ("E", "G") = .ok (some (125 / 2)) ∧
     final_match rollupDemo rollupDemoParams =
       .ok [("M", some 200), ("E", some 125)]) := by
  refine ⟨?_, ?_, ?_, ?_, ?_⟩
  · intro s p k h
    exact tgvRate_all_null h
  · intro s p k hdef hden
    rw [filterMap_rate_filter_defined]
    exact tgvRate_mixed hdef hden
  · intro rows s x hx
    rw [final_match_of] at hx
    obtain ⟨eid, _, rfl⟩ := List.mem_map.mp hx
    rfl
  · have hrows : tgvGroupRows rollupDemo rollupDemoParams ("E", "G") =
        [⟨"E", "G", some (10 / 10 * 100), 1⟩,
         ⟨"E", "G", some (5 / 10 * 100), 3⟩] := rfl
    rw [tgvRate, hrows]
    norm_num [sqlSum, sqlDiv, List.filterMap_cons]
  · have hkeys : tgvKeys rollupDemo rollupDemoParams = [("M", "G"), ("E", "G")] := rfl
    have hrowsM : tgvGroupRows rollupDemo rollupDemoParams ("M", "G") =
        [⟨"M", "G", some (10 / 10 * 100), 1⟩,
         ⟨"M", "G", some (10 / 10 * 100), 3⟩] := rfl
    have hrowsE : tgvGroupRows rollupDemo rollupDemoParams ("E", "G") =
        [⟨"E", "G", some (10 / 10 * 100), 1⟩,
         ⟨"E", "G", some (5 / 10 * 100), 3⟩] := rfl
    have hM : tgvRate rollupDemo rollupDemoParams ("M", "G") = .ok (some 100) := by
      rw [tgvRate, hrowsM]
      norm_num [sqlSum, sqlDiv, List.filterMap_cons]
    have hE : tgvRate rollupDemo rollupDemoParams ("E", "G") = .ok (some (125 / 2)) := by
      rw [tgvRate, hrowsE]
      norm_num [sqlSum, sqlDiv, List.filterMap_cons]
    have htgv : tgv_match rollupDemo rollupDemoParams =
        .ok [⟨"M", "G", some 100⟩, ⟨"E", "G", some (125 / 2)⟩] := by
      rw [tgv_match, hkeys]
      simp [mapExcept, hM, hE]
    have hfm : final_match_of [⟨"M", "G", some 100⟩, ⟨"E", "G", some (125 / 2)⟩]
        rollupDemo =
        [("M", sqlSum [some (100 * 2)]), ("E", sqlSum [some (125 / 2 * 2)])] := rfl
    have hsM : sqlSum [some (100 * 2 : ℚ)] = some 200 := by
      norm_num [sqlSum, List.filterMap_cons]
    have hsE : sqlSum [some (125 / 2 * 2 : ℚ)] = some 125 := by
      norm_num [sqlSum, List.filterMap_cons]
    rw [final_match, htgv]
    show Except.ok (final_match_of
      [⟨"M", "G", some 100⟩, ⟨"E", "G", some (125 / 2)⟩] rollupDemo) = _
    rw [hfm, hsM, hsE]

/-- Witness for C3 (amended): in `nullFinalDemo` every rate of E's group G
is NULL, and the engine yields a NULL group match for it. -/
theorem rollup_two_stage_c3_witness :
    tgvRate nullFinalDemo manualMParams ("E", "G") = .ok none := by
  apply rollup_two_stage_c3.1 nullFinalDemo manualMParams ("E", "G")
  have hrows : tgvGroupRows nullFinalDemo manualMParams ("E", "G") =
      [⟨"E", "G", none, 1⟩] := rfl
  rw [hrows]
  intro j hj
  rw [List.mem_singleton] at hj
  rw [hj]

/-- C4 counterexample: in `zeroBaselineDemo` the baseline of `z` is exactly 0,
so E's `z` match rate is undefined; the engine's group match is 50 because
`z`'s weight stays in the denominator, while the claimed rollup excluding the
variable from both sums is 100. -/
theorem zero_baseline_c4_counterexample :
    tgvRate zeroBaselineDemo manualMParams ("E", "G") = .ok (some 50) ∧
    specTgvRate (tgvGroupRows zeroBaselineDemo manualMParams ("E", "G")) = some 100 := by
  have hrows : tgvGroupRows zeroBaselineDemo manualMParams ("E", "G") =
      [⟨"E", "G", some (10 / 10 * 100), 1⟩, ⟨"E", "G", none, 1⟩] := rfl
  constructor
  · rw [tgvRate, hrows]
    norm_num [sqlSum, sqlDiv, List.filterMap_cons]
  · rw [specTgvRate, hrows]
    norm_num [List.filter_cons, List.filterMap_cons]

/-- C4 as amended: a variable with a zero baseline has an undefined match
rate for every employee (both formulas yield NULL), and an undefined match
rate is excluded from the numerator of the group rollup — but its weight is
still counted in the denominator `Σ(weight_v)`, which sums over every joined
variable row, so undefined rates do dilute the weighted mean. -/
theorem zero_baseline_c4 :
    (∀ u, ratio100 u (some 0) = none) ∧
    (∀ rev u, papiRate rev u (some 0) = none) ∧
    (∀ s p k, (∃ j ∈ tgvGroupRows s p k, j.rate ≠ none) →
      ((tgvGroupRows s p k).map (fun j => j.weight)).sum ≠ 0 →
      tgvRate s p k = .ok (some
        ((((tgvGroupRows s p k).filter (fun j => j.rate.isSome)).filterMap
            (fun j => j.rate.map (fun x => x * j.weight))).sum /
          ((tgvGroupRows s p k).map (fun j => j.weight)).sum))) := by
  refine ⟨?_, ?_, ?_⟩
  · intro u
    cases u <;> simp [ratio100, nullif0]
  · intro rev u
    cases u <;> simp [papiRate, nullif0]
  · intro s p k hdef hden
    rw [filterMap_rate_filter_defined]
    exact tgvRate_mixed hdef hden

/-- Witness for C4 (amended): the rollup clause applied to
`zeroBaselineDemo`, where E's group G holds one defined and one undefined
rate with weights 1 and 1. -/
theorem zero_baseline_c4_witness :
    tgvRate zeroBaselineDemo manualMParams ("E", "G") = .ok (some
      ((((tgvGroupRows zeroBaselineDemo manualMParams ("E", "G")).filter
          (fun j => j.rate.isSome)).filterMap
            (fun j => j.rate.map (fun x => x * j.weight))).sum /
        ((tgvGroupRows zeroBaselineDemo manualMParams ("E", "G")).map
          (fun j => j.weight)).sum)) := by
  have hrows : tgvGroupRows zeroBaselineDemo manualMParams ("E", "G") =
      [⟨"E", "G", some (10 / 10 * 100), 1⟩, ⟨"E", "G", none, 1⟩] := rfl
  refine zero_baseline_c4.2.2 zeroBaselineDemo manualMParams ("E", "G") ?_ ?_
  · rw [hrows]
    exact ⟨⟨"E", "G", some (10 / 10 * 100), 1⟩, List.mem_cons_self _ _, by simp⟩
  · rw [hrows]
    norm_num

theorem mem_of_mem_dedupFrom {α : Type} [BEq α] {a : α} :
    ∀ {seen l : List α}, a ∈ dedupFrom seen l → a ∈ l := by
  intro seen l
  induction l generalizing seen with
  | nil => intro h; exact absurd h (List.not_mem_nil a)
  | cons b bs ih =>
    intro h
    rw [dedupFrom] at h
    by_cases hc : (seen.contains b) = true
    · rw [if_pos hc] at h
      exact List.mem_cons_of_mem b (ih h)
    · rw [if_neg hc] at h
      rcases List.mem_cons.mp h with rfl | h2
      · exact List.mem_cons_self a bs
      · exact List.mem_cons_of_mem b (ih h2)

theorem mem_of_mem_dedup {α : Type} [BEq α] {a : α} {l : List α}
    (h : a ∈ dedup l) : a ∈ l :=
  mem_of_mem_dedupFrom h

theorem tgvGroupRows_ne_nil {s : Snapshot} {p : Params} {k : String × String}
    (hk : k ∈ tgvKeys s p) : tgvGroupRows s p k ≠ [] := by
  have hmem := mem_of_mem_dedup hk
  obtain ⟨j, hj, hkey⟩ := List.mem_map.mp hmem
  intro hnil
  have : j ∈ tgvGroupRows s p k := by
    rw [tgvGroupRows, List.mem_filter]
    refine ⟨hj, ?_⟩
    rw [← hkey]
    simp
  rw [hnil] at this
  exact List.not_mem_nil j this

theorem tgvJoinedRows_weight {s : Snapshot} {p : Params} {j : JoinedRow}
    (hj : j ∈ tgvJoinedRows s p) :
    ∃ m ∈ s.talent_variables_mapping, j.weight = m.tv_weight := by
  rw [tgvJoinedRows] at hj
  obtain ⟨a, ha, hj2⟩ := List.mem_flatMap.mp hj
  obtain ⟨m, hm, rfl⟩ := List.mem_map.mp hj2
  exact ⟨m, (List.mem_filter.mp hm).1, rfl⟩

theorem sqlSum_map_some {l : List JoinedRow} (h : l ≠ []) :
    sqlSum (l.map (fun j => some j.weight)) =
      some ((l.map (fun j => j.weight)).sum) := by
  have h2 : (l.map (fun j => some j.weight)).filterMap id =
      l.map (fun j => j.weight) := by
    rw [filterMap_id_map, filterMap_some_map]
  rw [sqlSum, h2, if_neg (by simp [h])]

theorem tgvRate_ok_of {s : Snapshot} {p : Params} {k : String × String}
    (hne : tgvGroupRows s p k ≠ [])
    (hd : ((tgvGroupRows s p k).map (fun j => j.weight)).sum ≠ 0) :
    ∃ r, tgvRate s p k = .ok r := by
  rw [tgvRate, sqlSum_map_some hne]
  cases hnum : sqlSum ((tgvGroupRows s p k).map
      (fun j => j.rate.map (fun x => x * j.weight))) with
  | none => exact ⟨none, rfl⟩
  | some n =>
    refine ⟨some (n / ((tgvGroupRows s p k).map (fun j => j.weight)).sum), ?_⟩
    rw [sqlDiv, if_neg hd]

theorem mapExcept_ok {α β : Type} {f : α → Except Unit β} :
    ∀ {l : List α}, (∀ a ∈ l, ∃ b, f a = .ok b) →
      ∃ bs, mapExcept f l = .ok bs := by
  intro l
  induction l with
  | nil => exact fun _ => ⟨[], rfl⟩
  | cons a as ih =>
    intro h
    obtain ⟨b, hb⟩ := h a (List.mem_cons_self a as)
    obtain ⟨bs, hbs⟩ := ih (fun x hx => h x (List.mem_cons_of_mem a hx))
    refine ⟨b :: bs, ?_⟩
    rw [mapExcept, hb, hbs]

/-- C7 counterexample: in `zeroWeightDemo` every configured weight is ≥ 0,
yet the group rollup divides by `SUM(tv_weight) = 0` with no guard, and the
whole query fails with a division-by-zero error instead of degrading to an
empty or partial result. -/
theorem div_guard_c7_counterexample :
    (∀ m ∈ zeroWeightDemo.talent_variables_mapping, 0 ≤ m.tv_weight) ∧
    (∀ g ∈ zeroWeightDemo.talent_group_weights, 0 ≤ g.tgv_weight) ∧
    outRows zeroWeightDemo manualMParams = .error () := by
  refine ⟨?_, ?_, ?_⟩
  · intro m hm
    rw [show zeroWeightDemo.talent_variables_mapping = [⟨"v1", "G", 0⟩] from rfl,
      List.mem_singleton] at hm
    rw [hm]
  · intro g hg
    rw [show zeroWeightDemo.talent_group_weights = [⟨"G", 1⟩] from rfl,
      List.mem_singleton] at hg
    rw [hg]
    norm_num
  · have hkeys : tgvKeys zeroWeightDemo manualMParams =
        [("M", "G"), ("E", "G")] := rfl
    have hrowsM : tgvGroupRows zeroWeightDemo manualMParams ("M", "G") =
        [⟨"M", "G", some (10 / 10 * 100), 0⟩] := rfl
    have hM : tgvRate zeroWeightDemo manualMParams ("M", "G") = .error () := by
      rw [tgvRate, hrowsM]
      norm_num [sqlSum, sqlDiv, List.filterMap_cons]
    have htgv : tgv_match zeroWeightDemo manualMParams = .error () := by
      rw [tgv_match, hkeys]
      rw [mapExcept, hM]
    have hfm : final_match zeroWeightDemo manualMParams = .error () := by
      rw [final_match, htgv]
    rw [outRows, hfm]

/-- C7 as amended: the `NULLIF` guards protect every division by a baseline,
but the group-rollup division by `SUM(tv_weight)` is unguarded; the engine
is error-free whenever every configured variable weight is strictly
positive. -/
theorem div_guard_c7 (s : Snapshot) (p : Params)
    (hpos : ∀ m ∈ s.talent_variables_mapping, 0 < m.tv_weight) :
    ∃ rows, outRows s p = .ok rows := by
  have h2 : ∀ k ∈ tgvKeys s p, ∃ row,
      (match tgvRate s p k with
        | .error e => Except.error e
        | .ok r => Except.ok (⟨k.1, k.2, r⟩ : TgvRow)) = .ok row := by
    intro k hk
    have hne := tgvGroupRows_ne_nil hk
    have hd : ((tgvGroupRows s p k).map (fun j => j.weight)).sum ≠ 0 := by
      have hpos2 : ∀ w ∈ (tgvGroupRows s p k).map (fun j => j.weight), 0 < w := by
        intro w hw
        obtain ⟨j, hj, rfl⟩ := List.mem_map.mp hw
        obtain ⟨m, hm, hw2⟩ := tgvJoinedRows_weight (List.mem_filter.mp hj).1
        rw [hw2]
        exact hpos m hm
      exact (List.sum_pos _ hpos2 (by simp [hne])).ne'
    obtain ⟨r, hr⟩ := tgvRate_ok_of hne hd
    exact ⟨⟨k.1, k.2, r⟩, by rw [hr]⟩
  obtain ⟨rows, hrows⟩ := mapExcept_ok h2
  have htgv : tgv_match s p = .ok rows := hrows
  have hfm : final_match s p = .ok (final_match_of rows s) := by
    rw [final_match, htgv]
  exact ⟨_, by rw [outRows, hfm]⟩

/-- Witness for C7 (amended): with the strictly positive weights of
`rollupDemo`, the query does not fail. -/
theorem div_guard_c7_witness :
    outRows rollupDemo rollupDemoParams ≠ .error () := by
  obtain ⟨rows, h⟩ := div_guard_c7 rollupDemo rollupDemoParams (by
    intro m hm
    rw [show rollupDemo.talent_variables_mapping =
      [⟨"v1", "G", 1⟩, ⟨"v2", "G", 3⟩] from rfl] at hm
    rcases List.mem_cons.mp hm with rfl | hm2
    · norm_num
    · rw [List.mem_singleton] at hm2
      rw [hm2]
      norm_num)
  rw [h]
  simp

theorem tieDemo_outRows : outRows tieDemo tieDemoParams =
    .ok [⟨"E1", "Ana", some 100⟩, ⟨"E2", "Ben", some 100⟩] := by
  have hkeys : tgvKeys tieDemo tieDemoParams = [("E1", "G"), ("E2", "G")] := rfl
  have hb : baseline_numeric tieDemo tieDemoParams "v1" = some 10 := by
    have hlist : (baselineRows tieDemo tieDemoParams "v1").filterMap id =
        [10, 10] := rfl
    rw [baseline_numeric, hlist]
    norm_num [percentileCont05, sortLe, insertLe]
  have hrate : ratio100 (some 10) (some 10) = some 100 := by
    norm_num [ratio100, nullif0]
  have hrows1 : tgvGroupRows tieDemo tieDemoParams ("E1", "G") =
      [⟨"E1", "G", ratio100 (some 10) (baseline_numeric tieDemo tieDemoParams "v1"), 1⟩] := rfl
  have hrows2 : tgvGroupRows tieDemo tieDemoParams ("E2", "G") =
      [⟨"E2", "G", ratio100 (some 10) (baseline_numeric tieDemo tieDemoParams "v1"), 1⟩] := rfl
  have h1 : tgvRate tieDemo tieDemoParams ("E1", "G") = .ok (some 100) := by
    rw [tgvRate, hrows1, hb, hrate]
    norm_num [sqlSum, sqlDiv, List.filterMap_cons]
  have h2 : tgvRate tieDemo tieDemoParams ("E2", "G") = .ok (some 100) := by
    rw [tgvRate, hrows2, hb, hrate]
    norm_num [sqlSum, sqlDiv, List.filterMap_cons]
  have htgv : tgv_match tieDemo tieDemoParams =
      .ok [⟨"E1", "G", some 100⟩, ⟨"E2", "G", some 100⟩] := by
    rw [tgv_match, hkeys]
    simp [mapExcept, h1, h2]
  have hfm : final_match_of [⟨"E1", "G", some 100⟩, ⟨"E2", "G", some 100⟩]
      tieDemo = [("E1", sqlSum [some (100 * 1)]), ("E2", sqlSum [some (100 * 1)])] := rfl
  have hs : sqlSum [some (100 * 1 : ℚ)] = some 100 := by
    norm_num [sqlSum, List.filterMap_cons]
  have hfin : final_match tieDemo tieDemoParams =
      .ok [("E1", some 100), ("E2", some 100)] := by
    rw [final_match, htgv]
    show Except.ok (final_match_of
      [⟨"E1", "G", some 100⟩, ⟨"E2", "G", some 100⟩] tieDemo) = _
    rw [hfm, hs]
  rw [outRows, hfin]
  rfl

/-- C5 counterexample: in `tieDemo` employees E1 and E2 tie at 100.  Both
orders of the two rows are outputs the query may produce — the `ORDER BY`
has no tie-breaking key — so the output is not determined, and the order
with E2 before E1 violates the claimed ascending-identifier tie-break. -/
theorem ranking_c5_counterexample :
    engineOutputs tieDemo tieDemoParams
      [⟨"E1", "Ana", some 100⟩, ⟨"E2", "Ben", some 100⟩] ∧
    engineOutputs tieDemo tieDemoParams
      [⟨"E2", "Ben", some 100⟩, ⟨"E1", "Ana", some 100⟩] ∧
    ([⟨"E2", "Ben", some 100⟩, ⟨"E1", "Ana", some 100⟩] : List OutRow) ≠
      [⟨"E1", "Ana", some 100⟩, ⟨"E2", "Ben", some 100⟩] := by
  have hle : rowLe (⟨"E1", "Ana", some 100⟩ : OutRow) ⟨"E2", "Ben", some 100⟩ := by
    rw [rowLe, scoreKeyLeB]
    norm_num
  have hle2 : rowLe (⟨"E2", "Ben", some 100⟩ : OutRow) ⟨"E1", "Ana", some 100⟩ := by
    rw [rowLe, scoreKeyLeB]
    norm_num
  refine ⟨⟨_, _, tieDemo_outRows, List.Perm.refl _, ?_, rfl⟩,
    ⟨_, _, tieDemo_outRows, List.Perm.swap _ _ _, ?_, rfl⟩, ?_⟩
  · exact List.sorted_cons.mpr ⟨by simpa using hle, List.sorted_singleton _⟩
  · exact List.sorted_cons.mpr ⟨by simpa using hle2, List.sorted_singleton _⟩
  · intro h
    have := congrArg (fun l => List.map (fun r => OutRow.employee_id r) l) h
    simp at this

/-- C5 as amended: every output the query can produce is sorted by
`final_match_rate DESC` (NULLs first) and holds at most 200 rows; the order
of rows with equal scores, and hence byte-identical repetition across runs,
is not guaranteed by the query. -/
theorem ranking_c5 (s : Snapshot) (p : Params) (out : List OutRow)
    (h : engineOutputs s p out) :
    List.Sorted rowLe out ∧ out.length ≤ 200 := by
  obtain ⟨rows, perm, hok, hperm, hsort, rfl⟩ := h
  constructor
  · exact List.Pairwise.sublist (List.take_sublist 200 perm) hsort
  · rw [List.length_take]
    exact min_le_left _ _

/-- Witness for C5 (amended): the tied output of `tieDemo` is sorted and
within the row bound. -/
theorem ranking_c5_witness :
    List.Sorted rowLe [(⟨"E1", "Ana", some 100⟩ : OutRow),
      ⟨"E2", "Ben", some 100⟩] ∧
    ([(⟨"E1", "Ana", some 100⟩ : OutRow), ⟨"E2", "Ben", some 100⟩]).length ≤ 200 :=
  ranking_c5 tieDemo tieDemoParams _
    ⟨_, _, tieDemo_outRows, List.Perm.refl _,
      List.sorted_cons.mpr ⟨by
        intro b hb
        rw [List.mem_singleton] at hb
        rw [hb, rowLe, scoreKeyLeB]
        norm_num, List.sorted_singleton _⟩, rfl⟩

theorem nullFinalDemo_final_match : final_match nullFinalDemo manualMParams =
    .ok [("M", some 100), ("E", none)] := by
  have hkeys : tgvKeys nullFinalDemo manualMParams = [("M", "G"), ("E", "G")] := rfl
  have hb : baseline_numeric nullFinalDemo manualMParams "iq" = some 100 := rfl
  have hrate : ratio100 (some 100) (some 100) = some 100 := by
    norm_num [ratio100, nullif0]
  have hrowsM : tgvGroupRows nullFinalDemo manualMParams ("M", "G") =
      [⟨"M", "G", ratio100 (some 100)
        (baseline_numeric nullFinalDemo manualMParams "iq"), 1⟩] := rfl
  have hM : tgvRate nullFinalDemo manualMParams ("M", "G") = .ok (some 100) := by
    rw [tgvRate, hrowsM, hb, hrate]
    norm_num [sqlSum, sqlDiv, List.filterMap_cons]
  have hE : tgvRate nullFinalDemo manualMParams ("E", "G") = .ok none := rfl
  have htgv : tgv_match nullFinalDemo manualMParams =
      .ok [⟨"M", "G", some 100⟩, ⟨"E", "G", none⟩] := by
    rw [tgv_match, hkeys]
    simp [mapExcept, hM, hE]
  have hfm : final_match_of [⟨"M", "G", some 100⟩, ⟨"E", "G", none⟩]
      nullFinalDemo =
      [("M", sqlSum [some (100 * 1)]), ("E", sqlSum [(none : Option ℚ)])] := rfl
  have hsM : sqlSum [some (100 * 1 : ℚ)] = some 100 := by
    norm_num [sqlSum, List.filterMap_cons]
  have hsE : sqlSum [(none : Option ℚ)] = none := rfl
  rw [final_match, htgv]
  show Except.ok (final_match_of
    [⟨"M", "G", some 100⟩, ⟨"E", "G", none⟩] nullFinalDemo) = _
  rw [hfm, hsM, hsE]

theorem nullFinalDemo_outRows : outRows nullFinalDemo manualMParams =
    .ok [⟨"M", "Mia", some 100⟩, ⟨"E", "Eko", none⟩] := by
  rw [outRows, nullFinalDemo_final_match]
  rfl

/-- C9 counterexample: in `nullFinalDemo`, employee E has group rows but a
NULL (undefined) final score, yet E appears in the ranked output — indeed
the descending NULLS-FIRST order can place E before the scored employee M. -/
theorem null_final_c9_counterexample :
    engineOutputs nullFinalDemo manualMParams
      [⟨"E", "Eko", none⟩, ⟨"M", "Mia", some 100⟩] ∧
    (⟨"E", "Eko", none⟩ : OutRow).final_match_rate = none := by
  constructor
  · refine ⟨_, _, nullFinalDemo_outRows, List.Perm.swap _ _ _, ?_, rfl⟩
    refine List.sorted_cons.mpr ⟨?_, List.sorted_singleton _⟩
    intro b hb
    rw [List.mem_singleton] at hb
    rw [hb]
    rfl
  · rfl

/-- C9 as amended: each output row stems from a `final_match` row, so an
employee with no `final_match` row appears nowhere — but `final_match` rows
with NULL final scores are kept and rendered, not excluded. -/
theorem null_final_c9 (s : Snapshot) (p : Params)
    (fm : List (String × Option ℚ)) (out : List OutRow)
    (hfm : final_match s p = .ok fm) (hout : engineOutputs s p out) :
    ∀ r ∈ out, r.employee_id ∈ fm.map (fun x => x.1) := by
  obtain ⟨rows, perm, hok, hperm, hsort, rfl⟩ := hout
  intro r hr
  have hr2 : r ∈ perm := List.mem_of_mem_take hr
  have hr3 : r ∈ rows := hperm.mem_iff.mpr hr2
  have hok2 : outRows s p = .ok (fm.flatMap (fun x =>
      (s.employees.filter (fun e => e.employee_id == x.1)).map
        (fun e => ⟨e.employee_id, e.fullname, x.2⟩))) := by
    rw [outRows, hfm]
  have hrows : rows = fm.flatMap (fun x =>
      (s.employees.filter (fun e => e.employee_id == x.1)).map
        (fun e => ⟨e.employee_id, e.fullname, x.2⟩)) := by
    have := hok.symm.trans hok2
    exact (Except.ok.injEq _ _).mp this
  rw [hrows] at hr3
  obtain ⟨x, hx, hr4⟩ := List.mem_flatMap.mp hr3
  obtain ⟨e, he, rfl⟩ := List.mem_map.mp hr4
  have heq : e.employee_id = x.1 := by
    have := (List.mem_filter.mp he).2
    simpa using this
  rw [List.mem_map]
  exact ⟨x, hx, heq.symm⟩

/-- Witness for C9 (amended): in `nullFinalDemo` the output row of M indeed
stems from a `final_match` row. -/
theorem null_final_c9_witness :
    (⟨"M", "Mia", some 100⟩ : OutRow).employee_id ∈
      ([("M", some (100 : ℚ)), ("E", none)].map (fun x => x.1)) := by
  refine null_final_c9 nullFinalDemo manualMParams _ _
    nullFinalDemo_final_match
    ⟨_, _, nullFinalDemo_outRows, List.Perm.swap _ _ _, ?_, rfl⟩
    ⟨"M", "Mia", some 100⟩ ?_
  · refine List.sorted_cons.mpr ⟨?_, List.sorted_singleton _⟩
    intro b hb
    rw [List.mem_singleton] at hb
    rw [hb]
    rfl
  · exact List.mem_cons_of_mem _ (List.mem_cons_self _ _)

theorem baselineRows_addPsych_nullNumeric {s : Snapshot} {p : Params}
    {r : PsychRow} (h1 : r.iq = none) (h2 : r.gtq = none) (h3 : r.tiki = none)
    (h4 : r.faxtor = none) (h5 : r.pauli = none) (tv : String) :
    (baselineRows (addPsych s r) p tv).filterMap id =
      (baselineRows s p tv).filterMap id := by
  have hps : (addPsych s r).profiles_psych = s.profiles_psych ++ [r] := rfl
  have hcs : compScores (addPsych s r) = compScores s := rfl
  simp only [baselineRows, benchNumericRows, all_numeric_scores, psychScores,
    hps, hcs, inFinalBench_addPsych, h1, h2, h3, h4, h5, List.map_append,
    List.filter_append, List.filterMap_append, List.map_cons, List.map_nil,
    List.filter_cons, List.filter_nil, List.filterMap_nil, apply_ite
      (fun l => List.filter (fun x : ScoreRow => x.tv_name == tv) l),
    apply_ite (fun l => List.map (fun x : ScoreRow => x.user_score) l),
    apply_ite (fun l : List (Option ℚ) => List.filterMap id l),
    List.filterMap_cons, id, ite_self, List.append_nil]

/-- C8 counterexample: in `missingDemo`, E's NULL `iq` is materialized as a
numeric score row (`user_score` NULL), and E's NULL `mbti` receives a
categorical match rate of 0 rather than no rate. -/
theorem missing_values_c8_counterexample :
    (⟨"E", "iq", none⟩ : ScoreRow) ∈ all_numeric_scores missingDemo ∧
    (⟨"E", "mbti", some 0⟩ : TvRow) ∈ categorical_tv missingDemo manualMParams := by
  constructor
  · rw [show all_numeric_scores missingDemo =
      [⟨"M", "iq", some 100⟩, ⟨"E", "iq", none⟩,
       ⟨"M", "gtq", none⟩, ⟨"E", "gtq", none⟩,
       ⟨"M", "tiki", none⟩, ⟨"E", "tiki", none⟩,
       ⟨"M", "faxtor", none⟩, ⟨"E", "faxtor", none⟩,
       ⟨"M", "pauli", none⟩, ⟨"E", "pauli", none⟩] from rfl]
    exact List.mem_cons_of_mem _ (List.mem_cons_self _ _)
  · rw [show categorical_tv missingDemo manualMParams =
      [⟨"M", "mbti", some (catMatch (some "INTJ")
          (mbtiBaseline missingDemo manualMParams))⟩,
       ⟨"M", "disc", some (catMatch none
          (discBaseline missingDemo manualMParams))⟩,
       ⟨"E", "mbti", some (catMatch none
          (mbtiBaseline missingDemo manualMParams))⟩,
       ⟨"E", "disc", some (catMatch none
          (discBaseline missingDemo manualMParams))⟩] from rfl]
    have : catMatch none (mbtiBaseline missingDemo manualMParams) = 0 := rfl
    rw [this]
    exact List.mem_cons_of_mem _ (List.mem_cons_of_mem _ (List.mem_cons_self _ _))

/-- C8 as amended: a NULL psychometric numeric field is materialized as a
score row with NULL value; such a row's match rate is NULL (and NULL scores
never shift any baseline median), but the row is not absent — and a NULL
categorical value yields a defined match rate of 0, not a missing rate. -/
theorem missing_values_c8 :
    (∀ s : Snapshot, ∀ r ∈ s.profiles_psych, r.iq = none →
      (⟨r.employee_id, "iq", none⟩ : ScoreRow) ∈ all_numeric_scores s) ∧
    (∀ b, ratio100 none b = none) ∧
    (∀ s p r, r.iq = none → r.gtq = none → r.tiki = none → r.faxtor = none →
      r.pauli = none →
      ∀ tv, baseline_numeric (addPsych s r) p tv = baseline_numeric s p tv) ∧
    (∀ s p, ∀ r ∈ s.profiles_psych, r.mbti = none →
      (⟨r.employee_id, "mbti", some 0⟩ : TvRow) ∈ categorical_tv s p) := by
  refine ⟨?_, ?_, ?_, ?_⟩
  · intro s r hr hiq
    rw [all_numeric_scores, List.mem_append]
    right
    rw [psychScores]
    rw [List.mem_append, List.mem_append, List.mem_append, List.mem_append]
    left; left; left; left
    rw [List.mem_map]
    exact ⟨r, hr, by rw [hiq]⟩
  · intro b
    rfl
  · intro s p r h1 h2 h3 h4 h5 tv
    rw [baseline_numeric, baseline_numeric,
      baselineRows_addPsych_nullNumeric h1 h2 h3 h4 h5]
  · intro s p r hr hmbti
    rw [categorical_tv, List.mem_flatMap]
    refine ⟨r, hr, ?_⟩
    rw [hmbti]
    exact List.mem_cons_self _ _

/-- Witness for C8 (amended): the clauses applied to `missingDemo` and a
fresh all-NULL profile row. -/
theorem missing_values_c8_witness :
    (⟨"E", "iq", none⟩ : ScoreRow) ∈ all_numeric_scores missingDemo ∧
    baseline_numeric (addPsych missingDemo
        ⟨"Z", none, none, none, none, none, none, none⟩) manualMParams "iq" =
      baseline_numeric missingDemo manualMParams "iq" ∧
    (⟨"E", "mbti", some 0⟩ : TvRow) ∈ categorical_tv missingDemo manualMParams := by
  refine ⟨?_, ?_, ?_⟩
  · exact missing_values_c8.1 missingDemo
      ⟨"E", none, none, none, none, none, none, none⟩
      (List.mem_cons_of_mem _ (List.mem_cons_self _ _)) rfl
  · exact missing_values_c8.2.2.1 missingDemo manualMParams
      ⟨"Z", none, none, none, none, none, none, none⟩ rfl rfl rfl rfl rfl "iq"
  · exact missing_values_c8.2.2.2 missingDemo manualMParams
      ⟨"E", none, none, none, none, none, none, none⟩
      (List.mem_cons_of_mem _ (List.mem_cons_self _ _)) rfl

theorem lexArr_cons_ne (acc : List Char) (out : List (List Char)) (c : Char)
    (rest : List Char) (h : c ≠ squo) :
    lexArr acc out (c :: rest) = lexArr (acc ++ [c]) out rest := by
  rw [lexArr.eq_def]
  dsimp only
  rw [if_neg h]

theorem lexArr_close (acc : List Char) (out : List (List Char)) :
    lexArr acc out [squo] = some (out ++ [acc]) := by
  rw [lexArr.eq_def]
  dsimp only
  rw [if_pos rfl]

theorem lexArr_step (acc : List Char) (out : List (List Char)) (l : List Char) :
    lexArr acc out (squo :: comma :: squo :: l) = lexArr [] (out ++ [acc]) l := by
  rw [lexArr.eq_def]
  dsimp only
  rw [if_pos rfl, if_neg (by decide), if_pos rfl, if_pos rfl]

theorem lexArr_shift : ∀ (w : List Char), squo ∉ w → ∀ (acc : List Char)
    (out : List (List Char)) (l : List Char),
    lexArr acc out (w ++ l) = lexArr (acc ++ w) out l := by
  intro w
  induction w with
  | nil => intro _ acc out l; simp
  | cons a w ih =>
    intro hw acc out l
    have ha : a ≠ squo := fun h => hw (h ▸ List.mem_cons_self a w)
    rw [List.cons_append, lexArr_cons_ne _ _ _ _ ha,
      ih (fun h => hw (List.mem_cons_of_mem a h))]
    simp

theorem manualListChars_eq (v : List Char) (ids : List (List Char)) :
    manualListChars (v :: ids) = (squo :: (v ++ [squo])) ++ joinRest ids := by
  cases ids with
  | nil => simp [manualListChars, joinRest, quoteChars]
  | cons y ys => simp [manualListChars, joinRest, quoteChars]

theorem lexArr_join : ∀ (ids : List (List Char)) (acc : List Char)
    (out : List (List Char)), (∀ v ∈ ids, squo ∉ v) →
    lexArr acc out (squo :: joinRest ids) = some (out ++ acc :: ids) := by
  intro ids
  induction ids with
  | nil =>
    intro acc out _
    rw [joinRest, if_pos rfl, lexArr_close]
  | cons v ids2 ih =>
    intro acc out hq
    have hv : squo ∉ v := hq v (List.mem_cons_self _ _)
    rw [joinRest, if_neg (by simp), manualListChars_eq, List.cons_append,
      lexArr_step, List.append_assoc, lexArr_shift v hv]
    rw [show ([squo] : List Char) ++ joinRest ids2 = squo :: joinRest ids2 from rfl]
    rw [ih ([] ++ v) (out ++ [acc]) (fun u hu => hq u (List.mem_cons_of_mem _ hu))]
    simp

theorem lexSeq_open (l : List Char) : lexSeq (squo :: l) = lexArr [] [] l := by
  rw [lexSeq.eq_def]
  dsimp only
  rw [if_pos rfl]

theorem lexSeq_roundtrip (ids : List (List Char)) (hne : ids ≠ [])
    (hq : ∀ v ∈ ids, squo ∉ v) :
    lexSeq (manualListChars ids) = some ids := by
  cases ids with
  | nil => contradiction
  | cons v ids2 =>
    rw [manualListChars_eq, List.cons_append, lexSeq_open, List.append_assoc,
      lexArr_shift v (hq v (List.mem_cons_self _ _))]
    rw [show ([squo] : List Char) ++ joinRest ids2 = squo :: joinRest ids2 from rfl]
    rw [lexArr_join ids2 ([] ++ v) []
      (fun u hu => hq u (List.mem_cons_of_mem _ hu))]
    simp

/-- C10. `build_match_sql` splices each manual id into the SQL text as
`'id'` with no escaping: when every id is free of single quotes, lexing the
generated comma-separated literal list recovers exactly the id list; for the
id `a'b`, which contains a single quote, the generated text fails to lex as
a literal list at all — the id's text escapes the string literal and becomes
query syntax. -/
theorem manual_id_splice_c10 :
    (∀ ids : List (List Char), ids ≠ [] → (∀ v ∈ ids, squo ∉ v) →
      lexSeq (manualListChars ids) = some ids) ∧
    lexSeq (manualListChars [['a', squo, 'b']]) = none := by
  constructor
  · exact lexSeq_roundtrip
  · decide

/-- Witness for C10: the quote-free ids `E1`, `E2` round-trip through the
generated literal list. -/
theorem manual_id_splice_c10_witness :
    lexSeq (manualListChars [['E', '1'], ['E', '2']]) =
      some [['E', '1'], ['E', '2']] :=
  manual_id_splice_c10.1 [['E', '1'], ['E', '2']] (by decide) (by decide)
